import Mathlib

/-!
Verification of the pjson5 library (a format-preserving JSON5-like parser
and editor written in Go) against its natural-language specification.

The Go source (json5.go plus its helper file with skipWhiteSpace,
findEndOfNumber, …) is shallowly embedded below.  Text is modelled as
`List Char` (the source indexes bytes; all inputs considered here are
ASCII, where byte and rune access coincide).  Mutation of the `Node`
struct becomes functional record update; Go loops become fuel-bounded
structural recursion, with fuel chosen so that every terminating run of
the Go code is reproduced exactly; exhausting fuel (which corresponds to
a non-terminating Go loop) or reading past the end of the text (which
corresponds to a Go index-out-of-range panic) is modelled by a parse
error, and no theorem below exercises those paths.
-/

namespace PJson5

abbrev Str := List Char

/-- `raw[pos]` byte access. Go panics when out of range; we return NUL,
which in every context below leads to a parse error. -/
def charAt (s : Str) (i : Nat) : Char := s.getD i (Char.ofNat 0)

/-- Go slice `s[a:b]`. -/
def sub (s : Str) (a b : Nat) : Str := (s.drop a).take (b - a)

def squote : Char := Char.ofNat 39
def dquote : Char := '"'
def lbraceC : Char := Char.ofNat 123
def rbraceC : Char := Char.ofNat 125
def lbrackC : Char := '['
def rbrackC : Char := ']'

/-- Source constant `backslash` (it actually holds a forward slash). -/
def backslash : Char := '/'
def colonC : Char := ':'
def commaC : Char := ','
def spaceC : Char := ' '
def lineBreakC : Char := '\n'

def isWhitespaceNLB (c : Char) : Bool := c = ' ' || c = '\t'

def isLineBreaker (c : Char) : Bool := c = '\r' || c = '\n'

def skipWhiteSpaceAux (s : Str) : Nat → Nat → Bool → Nat × Bool
  | 0, pos, lb => (pos, lb)
  | fuel + 1, pos, lb =>
    if pos < s.length then
      let isLB := isLineBreaker (charAt s pos)
      let lb' := lb || isLB
      if !isLB && !isWhitespaceNLB (charAt s pos) then (pos, lb')
      else skipWhiteSpaceAux s fuel (pos + 1) lb'
    else (pos, lb)

/-- Go `skipWhiteSpace`: skip spaces/tabs/linebreaks, report whether a
linebreak was crossed. -/
def skipWhiteSpace (s : Str) (pos : Nat) : Nat × Bool :=
  skipWhiteSpaceAux s (s.length + 1) pos false

def skipLineWhiteSpaceAux (s : Str) : Nat → Nat → Nat
  | 0, pos => pos
  | fuel + 1, pos =>
    if pos < s.length && isWhitespaceNLB (charAt s pos) then
      skipLineWhiteSpaceAux s fuel (pos + 1)
    else pos

/-- Go `skipLineWhiteSpace`: skip spaces/tabs only. -/
def skipLineWhiteSpace (s : Str) (pos : Nat) : Nat :=
  skipLineWhiteSpaceAux s (s.length + 1) pos

/-- Go `trimStringPart(raw, endPos, l)`. -/
def trimStringPart (raw : Str) (endPos l : Nat) : Str :=
  sub raw (endPos - l) endPos

def strIndexAux (s pat : Str) : Nat → Nat → Option Nat
  | 0, _ => none
  | fuel + 1, i =>
    if i + pat.length ≤ s.length then
      if pat.isPrefixOf (s.drop i) then some i
      else strIndexAux s pat fuel (i + 1)
    else none

/-- Go `strings.Index`. -/
def strIndex (s pat : Str) : Option Nat := strIndexAux s pat (s.length + 1) 0

/-- Go `strings.HasPrefix`. -/
def hasPrefix (s pat : Str) : Bool := pat.isPrefixOf s

/-- Go `strings.EqualFold` (ASCII folding; all inputs here are ASCII). -/
def equalFold (a b : Str) : Bool := a.map Char.toLower = b.map Char.toLower

/-- Go `strings.Trim(s, cutset)` for a single cut character. -/
def trimChar (s : Str) (c : Char) : Str :=
  ((s.dropWhile (· = c)).reverse.dropWhile (· = c)).reverse

def isHexLetter (c : Char) : Bool :=
  ('a' ≤ c && c ≤ 'f') || ('A' ≤ c && c ≤ 'F')

/-- The character loop of Go `findEndOfNumber` (the `for i, r := range s`
loop, with its mutable flags as parameters). `unicode.IsDigit` is modelled
by `Char.isDigit`, which agrees on ASCII. -/
def feLoop (isHex isOctal : Bool) : Str → Nat → Bool → Bool → Bool → Nat
  | [], i, _, _, _ => i
  | r :: rest, i, hasDot, hasE, hasESign =>
    if isHex then
      if i ≤ 1 then feLoop isHex isOctal rest (i + 1) hasDot hasE hasESign
      else if !r.isDigit && !isHexLetter r then i
      else feLoop isHex isOctal rest (i + 1) hasDot hasE hasESign
    else if isOctal then
      if i ≤ 1 then feLoop isHex isOctal rest (i + 1) hasDot hasE hasESign
      else if r < '0' || '7' < r then i
      else feLoop isHex isOctal rest (i + 1) hasDot hasE hasESign
    else if r.isDigit then feLoop isHex isOctal rest (i + 1) hasDot hasE hasESign
    else if r = '.' then
      if hasDot || hasE then i
      else feLoop isHex isOctal rest (i + 1) true hasE hasESign
    else if r = 'e' || r = 'E' then
      if hasE then i
      else feLoop isHex isOctal rest (i + 1) hasDot true false
    else if r = '+' || r = '-' then
      if (decide (i ≠ 0) && !hasE) || hasESign then i
      else feLoop isHex isOctal rest (i + 1) hasDot hasE (if hasE then true else hasESign)
    else i

/-- Go `findEndOfNumber`: end boundary of a numeric literal. -/
def findEndOfNumber (s : Str) : Nat :=
  let sl := s.length
  if sl = 0 then 0
  else if 8 ≤ sl && equalFold (s.take 8) "INFINITY".toList then 8
  else if charAt s 0 = '-' && 9 ≤ sl && equalFold (s.take 9) "-INFINITY".toList then 9
  else if 3 ≤ sl && equalFold (s.take 3) "NAN".toList then 3
  else
    let isHex := decide (2 ≤ sl) && charAt s 0 = '0' &&
      (charAt s 1 = 'x' || charAt s 1 = 'X')
    let isOctal := decide (2 ≤ sl) && charAt s 0 = '0' &&
      (charAt s 1 = 'o' || charAt s 1 = 'O')
    feLoop isHex isOctal s 0 false false false

/-! ### Model of `strconv.ParseFloat`

`parseNumber` delegates validation to Go's `strconv.ParseFloat(s, 64)`.
That function is external to the repository, so it is modelled here from
its documented behaviour: it accepts (case-insensitively) optionally
signed `inf`/`infinity`, unsigned `nan`, decimal literals (digits with at
most one dot and at least one digit, with an optional `e`/`E` exponent
carrying at least one digit), and hexadecimal floating-point literals,
which REQUIRE a binary `p` exponent — so a bare hex digit run such as
`0x1A`, or any `0o` octal literal, is rejected.  Out-of-range values
(ErrRange) and underscore digit separators are not modelled; every
application below is to short in-range literals without underscores. -/

def lowerStr (s : Str) : Str := s.map Char.toLower

def allDigits (s : Str) : Bool := s.all Char.isDigit

def allHexDigits (s : Str) : Bool := s.all (fun c => c.isDigit || isHexLetter c)

/-- Split off one leading sign character, if present. -/
def stripSign (s : Str) : Bool × Str :=
  match s with
  | c :: rest => if c = '+' || c = '-' then (true, rest) else (false, s)
  | [] => (false, s)

/-- `[sign] digits+` — an exponent tail. -/
def expDigitsOk (s : Str) : Bool :=
  let t := (stripSign s).2
  decide (t ≠ []) && allDigits t

/-- Digit run with at most one dot and at least one digit overall. -/
def mantissaOk (digitPred : Char → Bool) (s : Str) : Bool :=
  let before := s.takeWhile digitPred
  let rest := s.drop before.length
  match rest with
  | [] => decide (before ≠ [])
  | c :: after =>
    c = '.' && (decide (before ≠ []) || decide (after ≠ [])) && after.all digitPred

/-- Decimal form: mantissa with optional `e`/`E` exponent. -/
def decFormOk (s : Str) : Bool :=
  match strIndex (lowerStr s) ['e'] with
  | none => mantissaOk Char.isDigit s
  | some i => mantissaOk Char.isDigit (s.take i) && expDigitsOk (s.drop (i + 1))

/-- Hex form: `0x`/`0X` mantissa with a MANDATORY `p`/`P` exponent. -/
def hexFormOk (s : Str) : Bool :=
  match s with
  | z :: x :: rest =>
    z = '0' && (x = 'x' || x = 'X') &&
      (match strIndex (lowerStr rest) ['p'] with
       | none => false
       | some i =>
         mantissaOk (fun c => c.isDigit || isHexLetter c) (rest.take i) &&
           expDigitsOk (rest.drop (i + 1)))
  | _ => false

/-- Modelled from the documented behaviour of Go `strconv.ParseFloat`:
`true` iff ParseFloat returns a nil error (range errors not modelled). -/
def goParseFloatOk (s : Str) : Bool :=
  match s with
  | [] => false
  | _ =>
    let (signed, t) := stripSign s
    if lowerStr t = "inf".toList || lowerStr t = "infinity".toList then true
    else if !signed && lowerStr s = "nan".toList then true
    else decFormOk t || hexFormOk t

/-! ### Data model: block tokens, node type, Node -/

/-- The `dataType*` bit-flag constants of the source. -/
def dataTypeComment : Nat := 1
def dataTypeCommentLine : Nat := 2
def dataTypeStartFlag : Nat := 4
def dataTypeKey : Nat := 8
def dataTypeColon : Nat := 16
def dataTypeVal : Nat := 32
def dataTypeComma : Nat := 64
def dataTypeEndFlag : Nat := 128
def dataTypeLineBreak : Nat := 256

/-- Go `dataBlock`. -/
structure dataBlock where
  Typ : Nat
  Val : Str
deriving DecidableEq

instance : Inhabited dataBlock := ⟨⟨0, []⟩⟩

/-- Go `dataBlock.Is`. -/
def dataBlock.Is (db : dataBlock) (multiTyp : Nat) : Bool :=
  decide (db.Typ &&& multiTyp ≠ 0)

/-- Go `dataBlock.KeyUnQuot`. -/
def dataBlock.KeyUnQuot (db : dataBlock) : Str :=
  if db.Typ ≠ dataTypeKey then db.Val else trimChar db.Val dquote

/-- Go `Type` (named `Ty` here since `Type` is reserved in Lean). -/
inductive Ty where
  | None | Null | Boolean | Number | String | Array | Object
deriving DecidableEq

/-- Go `Node`.  Children are an association list modelling the Go map
`children` (indexed by unquoted key; only lookup / insert / delete are
ever performed on it, so ordering in this list is never observable, just
as map iteration order is never used by the source). -/
inductive Node where
  | mk : (raw : Str) → (parsed : Bool) → (typ : Ty) → (block : List dataBlock) →
      (val : Str) → (children : List (String × Node)) → (parseIdx : Nat) →
      (err : Option String) → Node

def Node.raw : Node → Str | .mk r _ _ _ _ _ _ _ => r
def Node.parsed : Node → Bool | .mk _ p _ _ _ _ _ _ => p
def Node.typ : Node → Ty | .mk _ _ t _ _ _ _ _ => t
def Node.block : Node → List dataBlock | .mk _ _ _ b _ _ _ _ => b
def Node.val : Node → Str | .mk _ _ _ _ v _ _ _ => v
def Node.children : Node → List (String × Node) | .mk _ _ _ _ _ c _ _ => c
def Node.parseIdx : Node → Nat | .mk _ _ _ _ _ _ i _ => i
def Node.err : Node → Option String | .mk _ _ _ _ _ _ _ e => e

/-- The Go zero value `Node{}`. -/
def Node.default : Node := .mk [] false .None [] [] [] 0 none

instance : Inhabited Node := ⟨Node.default⟩

def Node.setRaw (n : Node) (x : Str) : Node :=
  match n with | .mk _ p t b v c i e => .mk x p t b v c i e
def Node.setParsed (n : Node) (x : Bool) : Node :=
  match n with | .mk r _ t b v c i e => .mk r x t b v c i e
def Node.setTyp (n : Node) (x : Ty) : Node :=
  match n with | .mk r p _ b v c i e => .mk r p x b v c i e
def Node.setBlock (n : Node) (x : List dataBlock) : Node :=
  match n with | .mk r p t _ v c i e => .mk r p t x v c i e
def Node.setVal (n : Node) (x : Str) : Node :=
  match n with | .mk r p t b _ c i e => .mk r p t b x c i e
def Node.setChildren (n : Node) (x : List (String × Node)) : Node :=
  match n with | .mk r p t b v _ i e => .mk r p t b v x i e
def Node.setIdx (n : Node) (x : Nat) : Node :=
  match n with | .mk r p t b v c _ e => .mk r p t b v c x e
def Node.setErr (n : Node) (x : Option String) : Node :=
  match n with | .mk r p t b v c i _ => .mk r p t b v c i x

/-- Append one block token (`n.block = append(n.block, db)`). -/
def Node.addBlock (n : Node) (db : dataBlock) : Node :=
  n.setBlock (n.block ++ [db])

/-- Go map lookup `children[k]`. -/
def lookupChild (k : String) : List (String × Node) → Option Node
  | [] => none
  | (k', v) :: rest => if k' = k then some v else lookupChild k rest

/-- Go map assignment `children[k] = v` (replace or append). -/
def updateChild (k : String) (v : Node) : List (String × Node) → List (String × Node)
  | [] => [(k, v)]
  | (k', v') :: rest =>
    if k' = k then (k, v) :: rest else (k', v') :: updateChild k v rest

/-- Go `delete(children, k)`. -/
def removeChild (k : String) (l : List (String × Node)) : List (String × Node) :=
  l.filter (fun p => p.1 ≠ k)

/-- Go `New`. -/
def goNew (json : Str) : Node := Node.default.setRaw json

/-- Go `Node.Value`. -/
def goValue (n : Node) : Str := if n.parsed then n.val else n.raw

/-- Go `Node.exceptLineBreak`. -/
def exceptLineBreak (n : Node) (pos : Nat) : Bool :=
  if n.raw.length ≤ pos then false else charAt n.raw pos = lineBreakC

/-- Go `Node.except`. -/
def except (n : Node) (c : Char) : Bool :=
  if n.raw.length ≤ n.parseIdx then false else charAt n.raw n.parseIdx = c

/-- Go `parseErr`: `"invalid JSON5 value at position %d: %s"` with a
10-character context window. -/
def applyParseErr (n : Node) (pos : Nat) : Node :=
  n.setErr (some ("invalid JSON5 value at position " ++ toString pos ++ ": " ++
    String.mk (trimStringPart n.raw pos 10)))

/-! ### The recursive-descent parser (Go `parse` and its helpers) -/

/-- Error message of `errParseJsonErrorTmpl`, with separately chosen
reported position and context-window end (the source sometimes reports
`pos+1` while the window ends at `pos`). -/
def parseErrMsg (raw : Str) (posShown ctxEnd : Nat) : String :=
  "invalid JSON5 value at position " ++ toString posShown ++ ": " ++
    String.mk (trimStringPart raw ctxEnd 10)

/-- Message used when a fuel bound is exhausted, i.e. on inputs where the
corresponding Go loop would not terminate.  No theorem below reaches it. -/
def fuelMsg : String := "nonterminating loop (model)"

def commentBlockAdd (n : Node) (wBlock isNotInLine : Bool) (pos : Nat) : Node :=
  if wBlock then
    n.addBlock ⟨(if isNotInLine then dataTypeComment else dataTypeCommentLine),
      sub n.raw pos n.parseIdx⟩
  else n

/-- Go `parseComment`; result is `(node, endWithLB, suc)`.  The
`skipLineWhiteSpace(n.raw, endIdx)` call reproduces the source exactly,
including its use of the pattern-relative index `endIdx` as an absolute
position. -/
def parseComment (n : Node) (wBlock isNotInLine : Bool) : Node × Bool × Bool :=
  let pos := n.parseIdx
  if n.raw.length ≤ pos + 1 then
    (n.setErr (some (parseErrMsg n.raw (pos + 1) pos)), false, false)
  else
    let c := charAt n.raw (pos + 1)
    if c = backslash then
      let (n', endWithLB) :=
        match strIndex (n.raw.drop (pos + 2)) [lineBreakC] with
        | none => (n.setIdx n.raw.length, false)
        | some e => (n.setIdx (pos + 2 + e + 1), true)
      (commentBlockAdd n' wBlock isNotInLine pos, endWithLB, true)
    else if c = '*' then
      match strIndex (n.raw.drop (pos + 2)) ['*', '/'] with
      | none => (n.setErr (some (parseErrMsg n.raw (pos + 1) pos)), false, false)
      | some e =>
        let skipWhitePos := skipLineWhiteSpace n.raw e
        let (n', endWithLB) :=
          if skipWhitePos < n.raw.length ∧ exceptLineBreak n skipWhitePos then
            (n.setIdx (skipWhitePos + 1), true)
          else (n.setIdx (pos + 2 + e + 2), false)
        (commentBlockAdd n' wBlock isNotInLine pos, endWithLB, true)
    else
      (n.setIdx (pos + 1), false, false)

/-- Consecutive-backslash counter inside Go `parseString` (`for j := i-2;
j > 0; j--`); the argument is the current index `j`, index `0` is never
examined. -/
def bsCount (raw : Str) : Nat → Nat
  | 0 => 0
  | j + 1 => if charAt raw (j + 1) = '\\' then bsCount raw j + 1 else 0

/-- Inner loop of Go `parseString` (after a backslash was seen); returns
the new `parseIdx`. -/
def strInner (raw : Str) : Nat → Nat → Nat
  | 0, j => j
  | fuel + 1, j =>
    if raw.length ≤ j then (if j + 1 < raw.length then j + 1 else j)
    else
      let c := charAt raw j
      if '\\' < c then strInner raw fuel (j + 1)
      else if c = dquote then
        if charAt raw (j - 1) = '\\' then
          if bsCount raw (j - 2) % 2 = 0 then strInner raw fuel (j + 1)
          else j + 1
        else j + 1
      else strInner raw fuel (j + 1)

/-- Outer loop of Go `parseString`; `none` means the scan fell off the end
(`parseErr(len(rawStr)-1)`). -/
def strOuter (raw : Str) : Nat → Nat → Option Nat
  | 0, _ => none
  | fuel + 1, i =>
    if raw.length ≤ i then none
    else
      let c := charAt raw i
      if '\\' < c then strOuter raw fuel (i + 1)
      else if c = dquote then some (i + 1)
      else if c = '\\' then some (strInner raw (raw.length + 2) (i + 1))
      else strOuter raw fuel (i + 1)

/-- Go `parseString`.  Note that only a double quote ever terminates the
scan, regardless of the opening quote character. -/
def parseStringF (n : Node) : Node :=
  match strOuter n.raw (n.raw.length + 2) (n.parseIdx + 1) with
  | some idx => n.setIdx idx
  | none => applyParseErr n (n.raw.length - 1)

/-- Go `parseBoolean`. -/
def parseBoolean (n : Node) : Node :=
  let c := charAt n.raw n.parseIdx
  if c = 't' ∨ c = 'f' then
    let checkVal : Str := if c = 't' then "true".toList else "false".toList
    if hasPrefix (n.raw.drop n.parseIdx) checkVal then
      n.setIdx (n.parseIdx + checkVal.length)
    else applyParseErr n n.parseIdx
  else applyParseErr n n.parseIdx

/-- Go `parseNull`.  Faithful to the source, which advances the cursor by
`len(n.val)` — the length of the not-yet-assigned value field — rather
than by the length of the matched literal. -/
def parseNullF (n : Node) : Node :=
  if n.parseIdx + 4 ≤ n.raw.length ∧
      equalFold (sub n.raw n.parseIdx (n.parseIdx + 4)) "null".toList then
    n.setIdx (n.parseIdx + n.val.length)
  else applyParseErr n n.parseIdx

/-- Go `parseNumber`: find the literal's end boundary, then validate the
whole matched span — whatever its form — with `strconv.ParseFloat`. -/
def parseNumberF (n : Node) : Node :=
  let endIdx := n.parseIdx + findEndOfNumber (n.raw.drop n.parseIdx)
  if goParseFloatOk (sub n.raw n.parseIdx endIdx) then n.setIdx endIdx
  else applyParseErr n n.parseIdx

/-- Loop of Go `parseCombineEnd`; returns the node and the final bracket
depth `leftFlagNum`. -/
def combLoop (pair : Char × Char) : Nat → Node → Nat → Node × Nat
  | 0, n, left => (n.setErr (some fuelMsg), left)
  | fuel + 1, n, left =>
    if n.parseIdx < n.raw.length ∧ 0 < left ∧ n.err = none then
      let c := charAt n.raw n.parseIdx
      if c = backslash then
        let (n', _, _) := parseComment n false false
        combLoop pair fuel n' left
      else
        let left' := if c = pair.1 then left + 1 else if c = pair.2 then left - 1 else left
        combLoop pair fuel (n.setIdx (n.parseIdx + 1)) left'
    else (n, left)

/-- Go `parseCombineEnd`. -/
def parseCombineEnd (n : Node) (pair : Char × Char) : Node :=
  let (n', left) := combLoop pair (n.raw.length + 2) (n.setIdx (n.parseIdx + 1)) 1
  if n'.err ≠ none then n'
  else if 0 < left then applyParseErr n' n'.parseIdx
  else n'

/-- Key scan of Go `parseObjectKey`; `none` means end of input
(`parseErr(len(n.raw))`). -/
def keyScan (raw : Str) (isQuoted : Bool) : Nat → Nat → Option Nat
  | 0, _ => none
  | fuel + 1, i =>
    if raw.length ≤ i then none
    else
      let c := charAt raw i
      let hit := if isQuoted then c = dquote else isWhitespaceNLB c ∨ c = colonC
      if hit then some i else keyScan raw isQuoted fuel (i + 1)

/-- Go `parseObjectKey`. -/
def parseObjectKey (n : Node) : Node :=
  let isQuoted := charAt n.raw n.parseIdx = dquote
  let skip := if isQuoted then 1 else 0
  match keyScan n.raw isQuoted (n.raw.length + 2) (n.parseIdx + 1) with
  | some i => n.setIdx (i + skip)
  | none => applyParseErr n n.raw.length

/-- First characters of a numeric literal (`'-','+','.','0'..'9','I','N'`). -/
def numStartChar (c : Char) : Bool :=
  c = '-' || c = '+' || c = '.' || c.isDigit || c = 'I' || c = 'N'

/-- Go `parseObjectVal` (value dispatch inside an object; composite values
are matched as opaque balanced spans). -/
def parseObjectVal (n : Node) : Node :=
  let c := charAt n.raw n.parseIdx
  if c = lbraceC then parseCombineEnd n (lbraceC, rbraceC)
  else if c = lbrackC then parseCombineEnd n (lbrackC, rbrackC)
  else if c = dquote ∨ c = squote then parseStringF n
  else if c = 't' ∨ c = 'f' then parseBoolean n
  else if c = 'n' then parseNullF n
  else if numStartChar c then parseNumberF n
  else applyParseErr n n.parseIdx

/-- Main loop of Go `parseObject`.  `keyVal` is the pending
`keyBlock.Val` (empty when the next token should be a key). -/
def objLoop (objStartIdx : Nat) : Nat → Node → Bool → Str → Node
  | 0, n, _, _ => n.setErr (some fuelMsg)
  | fuel + 1, n, containsLB, keyVal =>
    if n.parseIdx < n.raw.length ∧ n.err = none then
      let ws := skipWhiteSpace n.raw n.parseIdx
      let pi := ws.1
      let skipLB := ws.2
      let n := n.setIdx pi
      let c := charAt n.raw pi
      let containsLB := if c ≠ backslash then false else containsLB
      if c = rbraceC then
        let n := ((n.setIdx (pi + 1)).addBlock ⟨dataTypeEndFlag, []⟩)
        n.setVal (sub n.raw objStartIdx (pi + 1))
      else if c = backslash then
        let r := parseComment n true (containsLB || skipLB)
        objLoop objStartIdx fuel r.1 r.2.1 keyVal
      else if c = colonC then
        objLoop objStartIdx fuel ((n.setIdx (pi + 1)).addBlock ⟨dataTypeColon, []⟩)
          containsLB keyVal
      else if c = commaC then
        objLoop objStartIdx fuel ((n.setIdx (pi + 1)).addBlock ⟨dataTypeComma, []⟩)
          containsLB keyVal
      else
        let startIdx := pi
        if keyVal = [] then
          let n' := parseObjectKey n
          if n'.err ≠ none then n'
          else
            let kv := sub n'.raw startIdx n'.parseIdx
            let kb : dataBlock := ⟨dataTypeKey, kv⟩
            if (lookupChild (String.mk kb.KeyUnQuot) n'.children).isSome then
              n'.setErr (some ("repeat key:" ++ String.mk kb.KeyUnQuot))
            else objLoop objStartIdx fuel (n'.addBlock kb) containsLB kv
        else
          let n' := parseObjectVal n
          if n'.err ≠ none then n'
          else
            let keyUq := String.mk (dataBlock.KeyUnQuot ⟨dataTypeKey, keyVal⟩)
            let n' := n'.setChildren
              (updateChild keyUq (goNew (sub n'.raw startIdx n'.parseIdx)) n'.children)
            let n' := n'.addBlock ⟨dataTypeVal, []⟩
            let n' := n'.setIdx (skipLineWhiteSpace n'.raw n'.parseIdx)
            let n' := if except n' commaC then
                (n'.addBlock ⟨dataTypeComma, []⟩).setIdx (n'.parseIdx + 1)
              else n'
            let ws2 := skipWhiteSpace n'.raw n'.parseIdx
            let n' := n'.setIdx ws2.1
            let n' := if ws2.2 then n'.addBlock ⟨dataTypeLineBreak, []⟩ else n'
            objLoop objStartIdx fuel n' containsLB []
    else n

/-- Go `parseObject`. -/
def parseObject (n : Node) : Node :=
  let objStartIdx := n.parseIdx
  let n := (n.setIdx (n.parseIdx + 1)).addBlock ⟨dataTypeStartFlag, []⟩
  let pos := skipLineWhiteSpace n.raw n.parseIdx
  let n := if exceptLineBreak n pos then n.addBlock ⟨dataTypeLineBreak, []⟩ else n
  objLoop objStartIdx (n.raw.length + 2) n false []

/-- Trailing-comment loop at the end of Go `parse` (lines 194–201). -/
def trailLoop : Nat → Node → Bool → Node
  | 0, n, _ => n.setErr (some fuelMsg)
  | fuel + 1, n, containsLB =>
    if n.err = none ∧ n.parseIdx < n.raw.length then
      let ws := skipWhiteSpace n.raw n.parseIdx
      let n := n.setIdx ws.1
      if ¬ (except n backslash = true) then applyParseErr n ws.1
      else
        let r := parseComment n true (ws.2 || containsLB)
        trailLoop fuel r.1 r.2.1
    else n

/-- The body of Go `parse` from the `parse:` label on; the leading-comment
case loops back to the label (here: recursion on fuel).  `skipLB` and
`containsLB` are freshly declared after the label in the source, so the
comment dispatch sees only the current round's `skipLB`. -/
def parseLoop : Nat → Node → Node
  | 0, n => if n.err ≠ none then n else n.setErr (some fuelMsg)
  | fuel + 1, n =>
    if n.err ≠ none then n
    else
      let ws := skipWhiteSpace n.raw n.parseIdx
      let pi := ws.1
      let skipLB := ws.2
      let n := n.setIdx pi
      let startIdx := pi
      if n.raw.length ≤ pi then applyParseErr n pi
      else
        let c := charAt n.raw pi
        if c = backslash then
          let r := parseComment n true skipLB
          parseLoop fuel r.1
        else
          let n :=
            if c = lbraceC then parseObject ((n.setTyp .Object).setChildren [])
            else if c = lbrackC then parseCombineEnd (n.setTyp .Array) (lbrackC, rbrackC)
            else if c = dquote ∨ c = squote then parseStringF (n.setTyp .String)
            else if c = 't' ∨ c = 'f' then parseBoolean (n.setTyp .Boolean)
            else if c = 'n' then parseNullF (n.setTyp .Null)
            else if numStartChar c then parseNumberF (n.setTyp .Number)
            else applyParseErr n pi
          if n.err ≠ none then n
          else
            let n := if n.typ ≠ .Object ∧ startIdx < n.parseIdx then
                (n.addBlock ⟨dataTypeVal, []⟩).setVal (sub n.raw startIdx n.parseIdx)
              else n
            let n := n.setIdx (skipLineWhiteSpace n.raw n.parseIdx)
            let n := if except n commaC then
                (n.addBlock ⟨dataTypeComma, []⟩).setIdx (n.parseIdx + 1)
              else n
            let ws2 := skipWhiteSpace n.raw n.parseIdx
            let n := n.setIdx ws2.1
            let n := if ws2.2 then n.addBlock ⟨dataTypeLineBreak, []⟩ else n
            trailLoop (n.raw.length + 2) n false

/-- Go `parse` (and `Parse`): memoised lazy parse. -/
def parse (n : Node) : Node :=
  if n.parsed then n else parseLoop (n.raw.length + 2) (n.setParsed true)

/-! ### The printer (Go `Pretty` / `buildNodeData`) -/

/-- Go `nextBlockIs(node, idx, typ)` on the remaining block list: is the
block after the current one of the given type? -/
def nextIs (rest : List dataBlock) (typ : Nat) : Bool :=
  match rest with
  | [] => false
  | b :: _ => b.Typ = typ

/-- `bytes.Repeat(placeholder, level)` — two spaces per level.  Go panics
on a negative count; the `Nat` level cannot go negative here. -/
def placeholderRep (level : Nat) : Str :=
  (List.replicate level [spaceC, spaceC]).flatten

/-- Work item for the printer recursion: either print a whole node, or
continue walking a node's block list (with current indentation level and
the most recent key, which positions value placeholders). -/
inductive BCall where
  | node : Node → Nat → BCall
  | blocks : Node → List dataBlock → Nat → String → BCall

/-- Go `buildNodeData`, as a fuel-indexed recursion: the `.node` case is
the function entry (an unparsed node prints its raw text verbatim), the
`.blocks` cases are the `for idx, block := range node.block` loop.  The
fuel only limits recursion depth × block count; every theorem below
supplies more than enough.  A value placeholder whose key has no child
(impossible for parser output; a nil-pointer panic in Go) prints
nothing. -/
def buildAux : Nat → BCall → Str
  | 0, _ => []
  | fuel + 1, .node n level =>
    if n.parsed = false then n.raw
    else buildAux fuel (.blocks n n.block level "")
  | _ + 1, .blocks _ [] _ _ => []
  | fuel + 1, .blocks n (b :: bs) level preKey =>
    if b.Typ = dataTypeComment then
      placeholderRep level ++ b.Val ++ buildAux fuel (.blocks n bs level preKey)
    else if b.Typ = dataTypeCommentLine then
      b.Val ++ buildAux fuel (.blocks n bs level preKey)
    else if b.Typ = dataTypeStartFlag then
      (match n.typ with
        | .Object => [lbraceC] | .Array => [lbrackC] | _ => []) ++
      (if !nextIs bs dataTypeLineBreak then [spaceC] else []) ++
      buildAux fuel (.blocks n bs (level + 1) preKey)
    else if b.Typ = dataTypeKey then
      placeholderRep level ++ b.Val ++
      buildAux fuel (.blocks n bs level (String.mk (trimChar b.Val dquote)))
    else if b.Typ = dataTypeColon then
      [colonC, spaceC] ++ buildAux fuel (.blocks n bs level preKey)
    else if b.Typ = dataTypeVal then
      (if n.typ ≠ Ty.Object then n.val
       else buildAux fuel (.node ((lookupChild preKey n.children).getD Node.default) level)) ++
      buildAux fuel (.blocks n bs level preKey)
    else if b.Typ = dataTypeComma then
      [commaC] ++ (if nextIs bs dataTypeKey then [lineBreakC] else [spaceC]) ++
      buildAux fuel (.blocks n bs level preKey)
    else if b.Typ = dataTypeEndFlag then
      placeholderRep (level - 1) ++
      (match n.typ with
        | .Object => [rbraceC] | .Array => [rbrackC] | _ => []) ++
      buildAux fuel (.blocks n bs (level - 1) preKey)
    else if b.Typ = dataTypeLineBreak then
      [lineBreakC] ++ buildAux fuel (.blocks n bs level preKey)
    else
      buildAux fuel (.blocks n bs level preKey)

/-- Go `Pretty`: an errored node prints its error text, otherwise the
block model is replayed.  `fuel` bounds the printer recursion (see
`buildAux`). -/
def goPretty (fuel : Nat) (n : Node) : String :=
  match n.err with
  | some e => e
  | none => String.mk (buildAux fuel (.node n 0))

/-! ### Path resolution, navigation and mutation -/

/-- Go `parsedPath`. -/
structure parsedPath where
  Root : Bool
  PathNoe : List String

/-- Go `parsedPath.onlyRoot`. -/
def parsedPath.onlyRoot (pp : parsedPath) : Bool :=
  pp.Root && decide (pp.PathNoe = [])

/-- Go `strings.Split(path, ".")` (single-character separator). -/
def splitOnDotAux (acc : Str) : Str → List String
  | [] => [String.mk acc.reverse]
  | c :: rest =>
    if c = '.' then String.mk acc.reverse :: splitOnDotAux [] rest
    else splitOnDotAux (c :: acc) rest

def splitOnDot (s : String) : List String := splitOnDotAux [] s.toList

/-- Go `parsePath` (`strings.Split` on `"."`; a leading `"$"` or a single
empty segment is the root marker). -/
def parsePath (path : String) : parsedPath :=
  let pathList := splitOnDot path
  match pathList with
  | [] => ⟨false, []⟩
  | p0 :: rest =>
    if p0 = "$" ∨ (rest = [] ∧ p0 = "") then ⟨true, rest⟩
    else ⟨false, p0 :: rest⟩

/-- The loop of Go `Get`.  The second component is the value most
recently assigned to the receiver's `err` field (`n.err =
pathNode.parse().Error()` runs on every iteration, also assigning nil). -/
def goGetAux (cur : Node) : List String → Node × Option String
  | [] =>
    let p := parse cur
    if p.err ≠ none then (Node.default, p.err) else (p, none)
  | seg :: rest =>
    let p := parse cur
    if p.err ≠ none then (Node.default, p.err)
    else
      match lookupChild seg p.children with
      | none => (Node.default, none)
      | some c => goGetAux c rest

/-- Go `Get`: returns `(result, updated receiver)`.  The receiver is
parsed in place by the loop's first iteration and its `err` field holds
the last assignment; in-place memoisation of intermediate children is not
modelled (no claim observes it). -/
def goGet (n : Node) (path : String) : Node × Node :=
  let pp := parsePath path
  if pp.onlyRoot then (n, n)
  else
    let r := goGetAux n pp.PathNoe
    (r.1, (parse n).setErr r.2)

/-- Go `Exists`. -/
def goExists (n : Node) (path : String) : Bool :=
  decide ((goGet n path).1.typ ≠ Ty.None)

/-- Go `buildObjectNode`: empty object with an open+close block skeleton. -/
def buildObjectNode : Node :=
  .mk [] true .Object [⟨dataTypeStartFlag, []⟩, ⟨dataTypeEndFlag, []⟩] [] [] 0 none

/-- Index of the LAST end-flag block (Go scans from the tail). -/
def lastEndFlagIdx : List dataBlock → Option Nat
  | [] => none
  | b :: bs =>
    match lastEndFlagIdx bs with
    | some i => some (i + 1)
    | none => if b.Typ = dataTypeEndFlag then some 0 else none

/-- Backward scan of `insertObjectNode` (`for i := endFlagIdx-1; i >= 0;
i--`): the argument is one past the next index to examine; returns the
position at which to insert a comma after the previous value, if any. -/
def commaInsertIdx (bs : List dataBlock) : Nat → Option Nat
  | 0 => none
  | j + 1 =>
    let b := bs.getD j default
    if b.Typ = dataTypeComma then none
    else if b.Typ = dataTypeVal then some (j + 1)
    else commaInsertIdx bs j

/-- Go `insertObjectNode`: register the child and splice
key/colon/value/linebreak tokens in front of the end flag, adding a comma
after the previously-last value. -/
def insertObjectNode (n : Node) (nodePath : String) (node : Node) : Node :=
  let n := n.setChildren (updateChild nodePath node n.children)
  match lastEndFlagIdx n.block with
  | none => n.setErr (some "inner error: end flag not found")
  | some endFlagIdx =>
    let insertBlocks : List dataBlock :=
      [⟨dataTypeKey, [dquote] ++ nodePath.toList ++ [dquote]⟩,
       ⟨dataTypeColon, []⟩, ⟨dataTypeVal, []⟩, ⟨dataTypeLineBreak, []⟩]
    let newBlock := n.block.take endFlagIdx ++ insertBlocks ++ n.block.drop endFlagIdx
    let newBlock :=
      match commaInsertIdx newBlock endFlagIdx with
      | none => newBlock
      | some k => newBlock.take k ++ [⟨dataTypeComma, []⟩] ++ newBlock.drop k
    n.setBlock newBlock

/-- First block index whose key token unquotes to `nodePath`. -/
def findKeyIdx (nodePath : String) : List dataBlock → Option Nat
  | [] => none
  | b :: bs =>
    if b.Typ = dataTypeKey ∧ String.mk b.KeyUnQuot = nodePath then some 0
    else (findKeyIdx nodePath bs).map (· + 1)

/-- Backward scan of `deleteObjectNode` (`for ; startIdx > 0; startIdx--`):
stops at the nearest index (never index 0) holding a
value/comma/trailing-comment/start-flag/linebreak token. -/
def scanDownStart (bs : List dataBlock) : Nat → Nat
  | 0 => 0
  | j + 1 =>
    if (bs.getD (j + 1) default).Is
        (dataTypeVal ||| dataTypeComma ||| dataTypeCommentLine |||
         dataTypeStartFlag ||| dataTypeLineBreak) then j + 1
    else scanDownStart bs j

/-- Forward scan of `deleteObjectNode`: nearest following
key/end-flag/standalone-comment/linebreak token (or the list's length). -/
def scanUpEnd (bs : List dataBlock) : Nat → Nat → Nat
  | 0, i => i
  | fuel + 1, i =>
    if bs.length ≤ i then i
    else if (bs.getD i default).Is
        (dataTypeKey ||| dataTypeEndFlag ||| dataTypeComment ||| dataTypeLineBreak) then i
    else scanUpEnd bs fuel (i + 1)

/-- Go `deleteObjectNode`: drop the child from the map and splice its
block range out. -/
def deleteObjectNode (n : Node) (nodePath : String) : Node :=
  if (lookupChild nodePath n.children).isSome = false then n
  else
    let n := n.setChildren (removeChild nodePath n.children)
    match findKeyIdx nodePath n.block with
    | none => n
    | some keyIdx =>
      let startIdx := if keyIdx = 0 then 0 else scanDownStart n.block (keyIdx - 1) + 1
      let endIdx := scanUpEnd n.block (n.block.length + 1) (keyIdx + 1)
      n.setBlock (n.block.take startIdx ++ n.block.drop endIdx)

/-- The loop of Go `Delete`; second component as in `goGetAux`. -/
def deleteWalk (cur : Node) : List String → Node × Option String
  | [] => (cur, none)
  | [seg] =>
    let p := parse cur
    if p.err ≠ none then (p, p.err)
    else
      match lookupChild seg p.children with
      | none => (p, none)
      | some _ => (deleteObjectNode p seg, none)
  | seg :: rest =>
    let p := parse cur
    if p.err ≠ none then (p, p.err)
    else
      match lookupChild seg p.children with
      | none => (p, none)
      | some c =>
        let r := deleteWalk c rest
        (p.setChildren (updateChild seg r.1 p.children), r.2)

/-- Go `Delete`: a root path resets the whole node to the zero value;
otherwise walk to the parent of the last segment and delete. -/
def goDelete (n : Node) (path : String) : Node :=
  let pp := parsePath path
  if pp.onlyRoot then Node.default
  else
    match pp.PathNoe with
    | [] => n
    | seg :: rest =>
      let r := deleteWalk n (seg :: rest)
      r.1.setErr r.2

/-- The walk of Go `SetString`: descend with auto-vivification, overwrite
the final node's raw text and clear its parsed flag.  Second component is
the error Go records on the receiver (`n.err`), set only in the two error
branches. -/
def setStrWalk (cur : Node) : List String → Str → Node × Option String
  | [], _ => (cur, none)
  | seg :: rest, val =>
    let p := parse cur
    if p.err ≠ none then (p, p.err)
    else if p.typ ≠ Ty.Object then (p, some "path not found")
    else
      let pc :=
        match lookupChild seg p.children with
        | some c => (p, c)
        | none =>
          let c := buildObjectNode
          (insertObjectNode (p.setChildren (updateChild seg c p.children)) seg c, c)
      let p2 := pc.1
      let child := pc.2
      if rest = [] then
        (p2.setChildren (updateChild seg ((child.setRaw val).setParsed false) p2.children),
          none)
      else
        let r := setStrWalk child rest val
        (p2.setChildren (updateChild seg r.1 p2.children), r.2)

/-- Go `SetString`. -/
def goSetString (n : Node) (path : String) (val : Str) : Node :=
  let pp := parsePath path
  if pp.onlyRoot then Node.default.setRaw val
  else
    let r := setStrWalk n pp.PathNoe val
    match r.2 with
    | some e => r.1.setErr (some e)
    | none => r.1

/-- Modelled from Go `encoding/json.Marshal` restricted to integer
values, where it produces the decimal text of the integer. -/
def jsonMarshalInt (i : Int) : Str := (toString i).toList

/-- Go `Set` for an integer value: marshal, then `SetString`. -/
def goSetInt (n : Node) (path : String) (i : Int) : Node :=
  goSetString n path (jsonMarshalInt i)

/-- The block loop of Go `ForEach`, recording each iterator invocation
`(unquoted key, children lookup)`; a `none` child models the nil pointer
Go would pass for a key token without a child. -/
def forEachBlocks (it : String → Option Node → Bool) (children : List (String × Node)) :
    List dataBlock → List (String × Option Node)
  | [] => []
  | b :: bs =>
    if b.Typ ≠ dataTypeKey then forEachBlocks it children bs
    else
      let rawKey := String.mk b.KeyUnQuot
      let c := lookupChild rawKey children
      (rawKey, c) :: (if it rawKey c then forEachBlocks it children bs else [])

/-- Go `ForEach`, as the list of iterator invocations it performs. -/
def forEachTrace (n : Node) (it : String → Option Node → Bool) :
    List (String × Option Node) :=
  let p := parse n
  if p.err ≠ none then []
  else if p.typ ≠ Ty.Object then [("", some p)]
  else forEachBlocks it p.children p.block

/-- Spec-side description of object iteration: one invocation per key
token (in the given order, which the caller instantiates with the key
tokens of the block list in document order), stopping after the first
invocation that returns false. -/
def specKeyTrace (it : String → Option Node → Bool) (children : List (String × Node)) :
    List dataBlock → List (String × Option Node)
  | [] => []
  | b :: bs =>
    let k := String.mk b.KeyUnQuot
    let c := lookupChild k children
    (k, c) :: (if it k c then specKeyTrace it children bs else [])

/-! ### Projection lemmas for the field updaters -/

@[simp] theorem raw_setRaw (n : Node) (x : Str) : (n.setRaw x).raw = x := by cases n; rfl
@[simp] theorem parsed_setRaw (n : Node) (x : Str) : (n.setRaw x).parsed = n.parsed := by cases n; rfl
@[simp] theorem typ_setRaw (n : Node) (x : Str) : (n.setRaw x).typ = n.typ := by cases n; rfl
@[simp] theorem block_setRaw (n : Node) (x : Str) : (n.setRaw x).block = n.block := by cases n; rfl
@[simp] theorem val_setRaw (n : Node) (x : Str) : (n.setRaw x).val = n.val := by cases n; rfl
@[simp] theorem children_setRaw (n : Node) (x : Str) : (n.setRaw x).children = n.children := by cases n; rfl
@[simp] theorem parseIdx_setRaw (n : Node) (x : Str) : (n.setRaw x).parseIdx = n.parseIdx := by cases n; rfl
@[simp] theorem err_setRaw (n : Node) (x : Str) : (n.setRaw x).err = n.err := by cases n; rfl

@[simp] theorem raw_setParsed (n : Node) (x : Bool) : (n.setParsed x).raw = n.raw := by cases n; rfl
@[simp] theorem parsed_setParsed (n : Node) (x : Bool) : (n.setParsed x).parsed = x := by cases n; rfl
@[simp] theorem typ_setParsed (n : Node) (x : Bool) : (n.setParsed x).typ = n.typ := by cases n; rfl
@[simp] theorem block_setParsed (n : Node) (x : Bool) : (n.setParsed x).block = n.block := by cases n; rfl
@[simp] theorem val_setParsed (n : Node) (x : Bool) : (n.setParsed x).val = n.val := by cases n; rfl
@[simp] theorem children_setParsed (n : Node) (x : Bool) : (n.setParsed x).children = n.children := by cases n; rfl
@[simp] theorem parseIdx_setParsed (n : Node) (x : Bool) : (n.setParsed x).parseIdx = n.parseIdx := by cases n; rfl
@[simp] theorem err_setParsed (n : Node) (x : Bool) : (n.setParsed x).err = n.err := by cases n; rfl

@[simp] theorem raw_setTyp (n : Node) (x : Ty) : (n.setTyp x).raw = n.raw := by cases n; rfl
@[simp] theorem parsed_setTyp (n : Node) (x : Ty) : (n.setTyp x).parsed = n.parsed := by cases n; rfl
@[simp] theorem typ_setTyp (n : Node) (x : Ty) : (n.setTyp x).typ = x := by cases n; rfl
@[simp] theorem block_setTyp (n : Node) (x : Ty) : (n.setTyp x).block = n.block := by cases n; rfl
@[simp] theorem val_setTyp (n : Node) (x : Ty) : (n.setTyp x).val = n.val := by cases n; rfl
@[simp] theorem children_setTyp (n : Node) (x : Ty) : (n.setTyp x).children = n.children := by cases n; rfl
@[simp] theorem parseIdx_setTyp (n : Node) (x : Ty) : (n.setTyp x).parseIdx = n.parseIdx := by cases n; rfl
@[simp] theorem err_setTyp (n : Node) (x : Ty) : (n.setTyp x).err = n.err := by cases n; rfl

@[simp] theorem raw_setBlock (n : Node) (x : List dataBlock) : (n.setBlock x).raw = n.raw := by cases n; rfl
@[simp] theorem parsed_setBlock (n : Node) (x : List dataBlock) : (n.setBlock x).parsed = n.parsed := by cases n; rfl
@[simp] theorem typ_setBlock (n : Node) (x : List dataBlock) : (n.setBlock x).typ = n.typ := by cases n; rfl
@[simp] theorem block_setBlock (n : Node) (x : List dataBlock) : (n.setBlock x).block = x := by cases n; rfl
@[simp] theorem val_setBlock (n : Node) (x : List dataBlock) : (n.setBlock x).val = n.val := by cases n; rfl
@[simp] theorem children_setBlock (n : Node) (x : List dataBlock) : (n.setBlock x).children = n.children := by cases n; rfl
@[simp] theorem parseIdx_setBlock (n : Node) (x : List dataBlock) : (n.setBlock x).parseIdx = n.parseIdx := by cases n; rfl
@[simp] theorem err_setBlock (n : Node) (x : List dataBlock) : (n.setBlock x).err = n.err := by cases n; rfl

@[simp] theorem raw_setVal (n : Node) (x : Str) : (n.setVal x).raw = n.raw := by cases n; rfl
@[simp] theorem parsed_setVal (n : Node) (x : Str) : (n.setVal x).parsed = n.parsed := by cases n; rfl
@[simp] theorem typ_setVal (n : Node) (x : Str) : (n.setVal x).typ = n.typ := by cases n; rfl
@[simp] theorem block_setVal (n : Node) (x : Str) : (n.setVal x).block = n.block := by cases n; rfl
@[simp] theorem val_setVal (n : Node) (x : Str) : (n.setVal x).val = x := by cases n; rfl
@[simp] theorem children_setVal (n : Node) (x : Str) : (n.setVal x).children = n.children := by cases n; rfl
@[simp] theorem parseIdx_setVal (n : Node) (x : Str) : (n.setVal x).parseIdx = n.parseIdx := by cases n; rfl
@[simp] theorem err_setVal (n : Node) (x : Str) : (n.setVal x).err = n.err := by cases n; rfl

@[simp] theorem raw_setChildren (n : Node) (x : List (String × Node)) : (n.setChildren x).raw = n.raw := by cases n; rfl
@[simp] theorem parsed_setChildren (n : Node) (x : List (String × Node)) : (n.setChildren x).parsed = n.parsed := by cases n; rfl
@[simp] theorem typ_setChildren (n : Node) (x : List (String × Node)) : (n.setChildren x).typ = n.typ := by cases n; rfl
@[simp] theorem block_setChildren (n : Node) (x : List (String × Node)) : (n.setChildren x).block = n.block := by cases n; rfl
@[simp] theorem val_setChildren (n : Node) (x : List (String × Node)) : (n.setChildren x).val = n.val := by cases n; rfl
@[simp] theorem children_setChildren (n : Node) (x : List (String × Node)) : (n.setChildren x).children = x := by cases n; rfl
@[simp] theorem parseIdx_setChildren (n : Node) (x : List (String × Node)) : (n.setChildren x).parseIdx = n.parseIdx := by cases n; rfl
@[simp] theorem err_setChildren (n : Node) (x : List (String × Node)) : (n.setChildren x).err = n.err := by cases n; rfl

@[simp] theorem raw_setIdx (n : Node) (x : Nat) : (n.setIdx x).raw = n.raw := by cases n; rfl
@[simp] theorem parsed_setIdx (n : Node) (x : Nat) : (n.setIdx x).parsed = n.parsed := by cases n; rfl
@[simp] theorem typ_setIdx (n : Node) (x : Nat) : (n.setIdx x).typ = n.typ := by cases n; rfl
@[simp] theorem block_setIdx (n : Node) (x : Nat) : (n.setIdx x).block = n.block := by cases n; rfl
@[simp] theorem val_setIdx (n : Node) (x : Nat) : (n.setIdx x).val = n.val := by cases n; rfl
@[simp] theorem children_setIdx (n : Node) (x : Nat) : (n.setIdx x).children = n.children := by cases n; rfl
@[simp] theorem parseIdx_setIdx (n : Node) (x : Nat) : (n.setIdx x).parseIdx = x := by cases n; rfl
@[simp] theorem err_setIdx (n : Node) (x : Nat) : (n.setIdx x).err = n.err := by cases n; rfl

@[simp] theorem raw_setErr (n : Node) (x : Option String) : (n.setErr x).raw = n.raw := by cases n; rfl
@[simp] theorem parsed_setErr (n : Node) (x : Option String) : (n.setErr x).parsed = n.parsed := by cases n; rfl
@[simp] theorem typ_setErr (n : Node) (x : Option String) : (n.setErr x).typ = n.typ := by cases n; rfl
@[simp] theorem block_setErr (n : Node) (x : Option String) : (n.setErr x).block = n.block := by cases n; rfl
@[simp] theorem val_setErr (n : Node) (x : Option String) : (n.setErr x).val = n.val := by cases n; rfl
@[simp] theorem children_setErr (n : Node) (x : Option String) : (n.setErr x).children = n.children := by cases n; rfl
@[simp] theorem parseIdx_setErr (n : Node) (x : Option String) : (n.setErr x).parseIdx = n.parseIdx := by cases n; rfl
@[simp] theorem err_setErr (n : Node) (x : Option String) : (n.setErr x).err = x := by cases n; rfl

/-- `parse` is the identity on an already-parsed node. -/
theorem parse_of_parsed (n : Node) (h : n.parsed = true) : parse n = n := by
  simp [parse, h]

/-- Map lookup immediately after updating the same key. -/
theorem lookupChild_updateChild_self (k : String) (v : Node) (l : List (String × Node)) :
    lookupChild k (updateChild k v l) = some v := by
  induction l with
  | nil => simp [updateChild, lookupChild]
  | cons p rest ih =>
    by_cases h : p.1 = k
    · simp [updateChild, h, lookupChild]
    · simp [updateChild, h, lookupChild, ih]

/-- A block list containing an end flag has a last end-flag index. -/
theorem lastEndFlagIdx_isSome (bs : List dataBlock)
    (h : ∃ b ∈ bs, b.Typ = dataTypeEndFlag) : ∃ i, lastEndFlagIdx bs = some i := by
  induction bs with
  | nil => simp at h
  | cons b rest ih =>
    rw [lastEndFlagIdx]
    cases hr : lastEndFlagIdx rest with
    | some i => exact ⟨i + 1, rfl⟩
    | none =>
      rcases h with ⟨b', hb', htyp⟩
      rcases List.mem_cons.mp hb' with rfl | hmem
      · simp [htyp]
      · rcases ih ⟨b', hmem, htyp⟩ with ⟨i, hi⟩
        rw [hi] at hr
        cases hr

/-! ### Claim theorems -/

/-- C4: parsing an object literal in which the same key occurs twice
fails with a duplicate-key error at the repeated key and aborts the parse
of that object rather than keeping the last value: parsing
`\x7b"a":1,"a":2\x7d` records the error `repeat key:a`, the node is left
unusable (its error is set), and the child stored for `a` still holds the
first value `1`, not `2`. -/
theorem c4_duplicate_key_rejected :
    (parse (goNew "\x7b\"a\":1,\"a\":2\x7d".toList)).err = some "repeat key:a" ∧
    (lookupChild "a" (parse (goNew "\x7b\"a\":1,\"a\":2\x7d".toList)).children).map Node.raw
      = some "1".toList := by decide

/-- C7 (code bug): parsing the document `null` is claimed to succeed with
a `Null`-typed node whose value span is the literal; the code instead
fails: `parseNull` matches the four characters case-insensitively but
then advances the cursor by `len(n.val)` — the length of the still-empty
value field — so the cursor never moves, the value span stays empty, and
the trailing-garbage loop reports a syntax error at position 0. -/
theorem c7_null_literal_parse_fails :
    (parse (goNew "null".toList)).typ = Ty.Null ∧
    (parse (goNew "null".toList)).err = some "invalid JSON5 value at position 0: " ∧
    (parse (goNew "null".toList)).val = [] ∧
    (parse (goNew "null".toList)).parseIdx = 0 := by decide

/-- C8 (code bug): parsing a single-quoted string document is claimed to
succeed exactly as for a double-quoted one; the code dispatches a leading
single quote into `parseString`, but that scanner only ever recognises a
double quote as the closing character, so `'abc'` dies with an
unterminated-string syntax error while `"abc"` parses fine. -/
theorem c8_single_quoted_string_parse_fails :
    (parse (goNew ([squote] ++ "abc".toList ++ [squote]))).typ = Ty.String ∧
    (parse (goNew ([squote] ++ "abc".toList ++ [squote]))).err ≠ none ∧
    (parse (goNew "\"abc\"".toList)).err = none ∧
    (parse (goNew "\"abc\"".toList)).typ = Ty.String ∧
    (parse (goNew "\"abc\"".toList)).val = "\"abc\"".toList := by decide

/-- C9 (code bug): the claim says hex/octal digit runs are accepted by
character class alone, with only the decimal/general case delegated to
the floating-point parser; but `parseNumber` runs `strconv.ParseFloat`
on EVERY matched span, and ParseFloat rejects `0x1A` (hex floats need a
`p` exponent) and `0o17`, so both die with a syntax error even though
`findEndOfNumber` correctly matched the 4-character span; an ordinary
decimal such as `12.5e3` parses. -/
theorem c9_hex_octal_rejected :
    findEndOfNumber "0x1A".toList = 4 ∧
    findEndOfNumber "0o17".toList = 4 ∧
    (parse (goNew "0x1A".toList)).err ≠ none ∧
    (parse (goNew "0o17".toList)).err ≠ none ∧
    (parse (goNew "0x1A".toList)).typ = Ty.Number ∧
    (parse (goNew "12.5e3".toList)).err = none ∧
    (parse (goNew "12.5e3".toList)).val = "12.5e3".toList := by decide

/-- C10: object members are identified by the double-quote-trimmed key
text: an object containing both the quoted key `"a"` and the bare key `a`
is rejected as a duplicate; a member is addressed by its unquoted text by
Get (whether written bare or quoted), reported unquoted by ForEach, and
deleted by its unquoted text by Delete. -/
theorem c10_unquoted_key_identification :
    (parse (goNew "\x7b\"a\":1,a:2\x7d".toList)).err = some "repeat key:a" ∧
    goValue (goGet (goNew "\x7ba:1\x7d".toList) "a").1 = "1".toList ∧
    goValue (goGet (goNew "\x7b\"a\":1\x7d".toList) "a").1 = "1".toList ∧
    (forEachTrace (goNew "\x7b\"a\":1\x7d".toList) (fun _ _ => true)).map Prod.fst = ["a"] ∧
    (goGet (goDelete (goNew "\x7b\"a\":1\x7d".toList) "a") "a").1.typ = Ty.None ∧
    (forEachTrace (goDelete (goNew "\x7b\"a\":1\x7d".toList) "a")
      (fun _ _ => true)).map Prod.fst = [] := by decide

/-- C1 (counterexample): the round-trip claim fails: `\x7b"a":1\x7d` is a
well-formed object document (it parses without error), yet `Pretty` after
parsing returns `\x7b   "a": 1\x7d` — the printer re-synthesises
indentation and spacing — which differs from the input. -/
theorem c1_roundtrip_counterexample :
    (parse (goNew "\x7b\"a\":1\x7d".toList)).err = none ∧
    goPretty 20 (parse (goNew "\x7b\"a\":1\x7d".toList)) = "\x7b   \"a\": 1\x7d" ∧
    goPretty 20 (parse (goNew "\x7b\"a\":1\x7d".toList)) ≠ "\x7b\"a\":1\x7d" := by decide

/-- C3 (counterexample): the first error is NOT final for the node's
lifetime: parsing `@` records a syntax error, but a subsequent root-path
`Delete("$")` or `SetString("$", …)` replaces the whole node with a fresh
zero value, after which `Error()` is nil again. -/
theorem c3_sticky_error_counterexample :
    (parse (goNew "@".toList)).err ≠ none ∧
    (goDelete (parse (goNew "@".toList)) "$").err = none ∧
    (goSetString (parse (goNew "@".toList)) "$" "1".toList).err = none := by decide

/-- The `ForEach` block loop invokes the iterator exactly on the key
tokens, i.e. it equals the spec-side trace over the filtered key-token
sublist (which preserves document order). -/
theorem forEachBlocks_eq_specKeyTrace (it : String → Option Node → Bool)
    (children : List (String × Node)) (bs : List dataBlock) :
    forEachBlocks it children bs =
      specKeyTrace it children (bs.filter (fun b => decide (b.Typ = dataTypeKey))) := by
  induction bs with
  | nil => rfl
  | cons b rest ih =>
    by_cases h : b.Typ = dataTypeKey
    · simp [forEachBlocks, specKeyTrace, h, ih]
    · simp [forEachBlocks, h, ih]

/-- C6: ForEach on a node that fails to parse invokes the iterator zero
times; on a parsed non-Object node exactly once, with the empty key and
the (parsed) node itself; on an Object node exactly once per key token of
the block list, in block-list order (the key tokens filtered out of the
block list, never map order), passing the unquoted key text and the
child-map lookup, and stopping as soon as the iterator returns false. -/
theorem c6_foreach_invocations (n : Node) (it : String → Option Node → Bool) :
    forEachTrace n it =
      if (parse n).err ≠ none then []
      else if (parse n).typ ≠ Ty.Object then [("", some (parse n))]
      else specKeyTrace it (parse n).children
        ((parse n).block.filter (fun b => decide (b.Typ = dataTypeKey))) := by
  unfold forEachTrace
  by_cases he : (parse n).err ≠ none
  · simp [he]
  · by_cases ht : (parse n).typ ≠ Ty.Object
    · simp [he, ht]
    · simp [he, ht, forEachBlocks_eq_specKeyTrace]

/-- The navigation prefix of a path parses cleanly, and some segment is
then absent from the children of the node it is looked up in (decidable
formulation used as the hypothesis of C2). -/
def missesCleanly (n : Node) : List String → Bool
  | [] => false
  | seg :: rest =>
    if (parse n).err = none then
      match lookupChild seg (parse n).children with
      | none => true
      | some c => missesCleanly c rest
    else false

theorem goGetAux_of_misses (segs : List String) :
    ∀ n : Node, missesCleanly n segs = true → goGetAux n segs = (Node.default, none) := by
  induction segs with
  | nil => intro n h; simp [missesCleanly] at h
  | cons seg rest ih =>
    intro n h
    rw [missesCleanly] at h
    by_cases he : (parse n).err = none
    · rw [if_pos he] at h
      cases hl : lookupChild seg (parse n).children with
      | none => simp [goGetAux, he, hl]
      | some c =>
        rw [hl] at h
        simp only [goGetAux, he, hl]
        simpa using ih c h
    · rw [if_neg he] at h; cases h

/-- C2: for every document whose nodes on the navigated prefix parse
without error and every path with a segment absent from the object it is
looked up in, `Get` returns a `None`-typed node carrying no error,
records no error on the receiver, and `Exists` returns false. -/
theorem c2_missing_path_safety (n : Node) (path : String)
    (h : missesCleanly n (parsePath path).PathNoe = true) :
    (goGet n path).1.typ = Ty.None ∧
    (goGet n path).1.err = none ∧
    (goGet n path).2.err = none ∧
    goExists n path = false := by
  have hroot : (parsePath path).onlyRoot = false := by
    rcases hpn : (parsePath path).PathNoe with _ | ⟨s, rest⟩
    · rw [hpn] at h; simp [missesCleanly] at h
    · simp [parsedPath.onlyRoot, hpn]
  have haux := goGetAux_of_misses _ n h
  refine ⟨?_, ?_, ?_, ?_⟩
  · simp [goGet, hroot, haux, Node.default, Node.typ]
  · simp [goGet, hroot, haux, Node.default, Node.err]
  · simp [goGet, hroot, haux]
  · simp [goExists, goGet, hroot, haux, Node.default, Node.typ]

/-- Witness for C2 at the concrete document `\x7b"a":1\x7d` and the
absent two-segment chain `a.q`. -/
theorem c2_missing_path_safety_witness :
    goExists (goNew "\x7b\"a\":1\x7d".toList) "a.q" = false :=
  (c2_missing_path_safety (goNew "\x7b\"a\":1\x7d".toList) "a.q" (by decide)).2.2.2

theorem parseLoop_of_err (fuel : Nat) (m : Node) (e : String) (h : m.err = some e) :
    parseLoop fuel m = m := by
  cases fuel with
  | zero => simp [parseLoop, h]
  | succ f => simp [parseLoop, h]

/-- An error already recorded on a node survives `parse` untouched. -/
theorem err_parse_of_err (n : Node) (e : String) (h : n.err = some e) :
    (parse n).err = some e := by
  by_cases hp : n.parsed = true
  · rw [parse_of_parsed n hp]; exact h
  · have hl : parseLoop (n.raw.length + 2) (n.setParsed true) = n.setParsed true :=
      parseLoop_of_err _ _ e (by simp [h])
    simp [parse, hp, hl, h]

/-- C3 (amended): once an operation has recorded a non-nil error on a
node, the error stays set across every subsequent operation that does not
replace the whole document — parse, Get, SetString, Delete on non-root
paths, ForEach (which performs no invocation), Pretty (which returns the
error text) — while root-path Set/SetString/Delete reset the node,
including its error (see the counterexample). -/
theorem c3_sticky_error_amended (n : Node) (e : String) (path : String) (val : Str)
    (it : String → Option Node → Bool) (fuel : Nat)
    (herr : n.err = some e) (hroot : (parsePath path).onlyRoot = false) :
    (parse n).err = some e ∧
    (goGet n path).2.err = some e ∧
    (goGet n path).1 = Node.default ∧
    (goSetString n path val).err = some e ∧
    (goDelete n path).err = some e ∧
    forEachTrace n it = [] ∧
    goPretty fuel n = e := by
  have hparse : (parse n).err = some e := err_parse_of_err n e herr
  have haux : goGetAux n (parsePath path).PathNoe = (Node.default, some e) := by
    rcases (parsePath path).PathNoe with _ | ⟨s, rest⟩
    · simp [goGetAux, hparse]
    · simp [goGetAux, hparse]
  refine ⟨hparse, ?_, ?_, ?_, ?_, ?_, ?_⟩
  · simp [goGet, hroot, haux]
  · simp [goGet, hroot, haux]
  · rcases hpn : (parsePath path).PathNoe with _ | ⟨s, rest⟩
    · simp [goSetString, hroot, hpn, setStrWalk, herr]
    · simp [goSetString, hroot, hpn, setStrWalk, hparse]
  · rcases hpn : (parsePath path).PathNoe with _ | ⟨s, _ | ⟨s2, rest⟩⟩
    · simp [goDelete, hroot, hpn, herr]
    · simp [goDelete, hroot, hpn, deleteWalk, hparse]
    · simp [goDelete, hroot, hpn, deleteWalk, hparse]
  · simp [forEachTrace, hparse]
  · simp [goPretty, herr]

/-- Witness for C3 (amended) at the errored document `@` and the
non-root path `a`. -/
theorem c3_sticky_error_amended_witness :
    (goDelete (parse (goNew "@".toList)) "a").err =
      some "invalid JSON5 value at position 0: " :=
  (c3_sticky_error_amended (parse (goNew "@".toList))
    "invalid JSON5 value at position 0: " "a" "1".toList (fun _ _ => true) 5
    (by decide) (by decide)).2.2.2.2.1

theorem updateChild_idem (k : String) (v : Node) (l : List (String × Node)) :
    updateChild k v (updateChild k v l) = updateChild k v l := by
  induction l with
  | nil => simp [updateChild]
  | cons a rest ih =>
    by_cases h : a.1 = k
    · simp [updateChild, h]
    · simp [updateChild, h, ih]

/-- Effect of `insertObjectNode` on the fields that matter for
navigation: it only touches the children map and the block list (when an
end flag exists). -/
theorem insertObjectNode_facts (q : Node) (k : String) (c : Node) (i : Nat)
    (hi : lastEndFlagIdx q.block = some i) :
    (insertObjectNode q k c).parsed = q.parsed ∧
    (insertObjectNode q k c).err = q.err ∧
    (insertObjectNode q k c).typ = q.typ ∧
    (insertObjectNode q k c).children = updateChild k c q.children := by
  simp [insertObjectNode, hi, updateChild_idem]

/-- `SetString` walk, first segment missing, further segments to go:
auto-vivify an empty object child and recurse into it. -/
theorem setStrWalk_firstMiss (p : Node) (seg : String) (rest : List String) (v : Str)
    (hp : p.parsed = true) (he : p.err = none) (ht : p.typ = Ty.Object)
    (hx : lookupChild seg p.children = none) (hrest : rest ≠ []) :
    setStrWalk p (seg :: rest) v =
      ((insertObjectNode (p.setChildren (updateChild seg buildObjectNode p.children))
          seg buildObjectNode).setChildren
        (updateChild seg (setStrWalk buildObjectNode rest v).1
          (insertObjectNode (p.setChildren (updateChild seg buildObjectNode p.children))
            seg buildObjectNode).children),
       (setStrWalk buildObjectNode rest v).2) := by
  rw [setStrWalk]
  simp [parse_of_parsed p hp, he, ht, hx, hrest]

/-- `SetString` walk, single missing segment: auto-vivify, then overwrite
the fresh child's raw text and clear its parsed flag. -/
theorem setStrWalk_lastMiss (p : Node) (seg : String) (v : Str)
    (hp : p.parsed = true) (he : p.err = none) (ht : p.typ = Ty.Object)
    (hx : lookupChild seg p.children = none) :
    setStrWalk p [seg] v =
      ((insertObjectNode (p.setChildren (updateChild seg buildObjectNode p.children))
          seg buildObjectNode).setChildren
        (updateChild seg ((buildObjectNode.setRaw v).setParsed false)
          (insertObjectNode (p.setChildren (updateChild seg buildObjectNode p.children))
            seg buildObjectNode).children),
       none) := by
  rw [setStrWalk]
  simp [parse_of_parsed p hp, he, ht, hx]

/-- C5: on a well-formed object document (parsed, no error, with its
closing end-flag token) with no member `x`, `Set("x.y.z", 1)` succeeds
with no error, auto-creating intermediate objects `x` and `x.y`, and a
subsequent `Get("x.y.z")` yields a node whose `Value()` is the textual
encoding `1`; likewise `Set("x", 5)` followed by `Get("x")` yields `5`. -/
theorem c5_set_get_autovivify (p : Node)
    (hp : p.parsed = true) (he : p.err = none) (ht : p.typ = Ty.Object)
    (hx : lookupChild "x" p.children = none)
    (hend : ∃ b ∈ p.block, b.Typ = dataTypeEndFlag) :
    (goSetInt p "x.y.z" 1).err = none ∧
    (goGet (goSetInt p "x.y.z" 1) "x").1.typ = Ty.Object ∧
    (goGet (goSetInt p "x.y.z" 1) "x.y").1.typ = Ty.Object ∧
    goValue (goGet (goSetInt p "x.y.z" 1) "x.y.z").1 = "1".toList ∧
    (goSetInt p "x" 5).err = none ∧
    goValue (goGet (goSetInt p "x" 5) "x").1 = "5".toList := by
  obtain ⟨i, hi⟩ := lastEndFlagIdx_isSome p.block hend
  have hifacts := insertObjectNode_facts
    (p.setChildren (updateChild "x" buildObjectNode p.children)) "x" buildObjectNode i
    (by simpa using hi)
  have hyz2 : (setStrWalk buildObjectNode ["y", "z"] ['1']).2 = none := by decide
  have hpp3 : parsePath "x.y.z" = ⟨false, ["x", "y", "z"]⟩ := rfl
  have hpp1 : parsePath "x" = ⟨false, ["x"]⟩ := rfl
  have hpp2 : parsePath "x.y" = ⟨false, ["x", "y"]⟩ := rfl
  have hm1 : jsonMarshalInt 1 = "1".toList := rfl
  have hm5 : jsonMarshalInt 5 = "5".toList := rfl
  have hR3 : goSetInt p "x.y.z" 1 =
      ((insertObjectNode (p.setChildren (updateChild "x" buildObjectNode p.children))
          "x" buildObjectNode).setChildren
        (updateChild "x" (setStrWalk buildObjectNode ["y", "z"] ("1".toList)).1
          (insertObjectNode (p.setChildren (updateChild "x" buildObjectNode p.children))
            "x" buildObjectNode).children)) := by
    rw [goSetInt, hm1, goSetString]
    simp only [hpp3, parsedPath.onlyRoot]
    rw [setStrWalk_firstMiss p "x" ["y", "z"] ("1".toList) hp he ht hx (by simp)]
    simp [hyz2]
  have hR1 : goSetInt p "x" 5 =
      ((insertObjectNode (p.setChildren (updateChild "x" buildObjectNode p.children))
          "x" buildObjectNode).setChildren
        (updateChild "x" ((buildObjectNode.setRaw ("5".toList)).setParsed false)
          (insertObjectNode (p.setChildren (updateChild "x" buildObjectNode p.children))
            "x" buildObjectNode).children)) := by
    rw [goSetInt, hm5, goSetString]
    simp only [hpp1, parsedPath.onlyRoot]
    rw [setStrWalk_lastMiss p "x" ("5".toList) hp he ht hx]
    simp
  have hR3parsed : (goSetInt p "x.y.z" 1).parsed = true := by
    rw [hR3]; simp [hifacts.1, hp]
  have hR3err : (goSetInt p "x.y.z" 1).err = none := by
    rw [hR3]; simp [hifacts.2.1, he]
  have hR3kids : lookupChild "x" (goSetInt p "x.y.z" 1).children =
      some (setStrWalk buildObjectNode ["y", "z"] ("1".toList)).1 := by
    rw [hR3]; simp [lookupChild_updateChild_self]
  have hR1parsed : (goSetInt p "x" 5).parsed = true := by
    rw [hR1]; simp [hifacts.1, hp]
  have hR1err : (goSetInt p "x" 5).err = none := by
    rw [hR1]; simp [hifacts.2.1, he]
  have hR1kids : lookupChild "x" (goSetInt p "x" 5).children =
      some ((buildObjectNode.setRaw ("5".toList)).setParsed false) := by
    rw [hR1]; simp [lookupChild_updateChild_self]
  refine ⟨hR3err, ?_, ?_, ?_, hR1err, ?_⟩
  · rw [goGet]
    simp only [hpp1, parsedPath.onlyRoot]
    rw [if_neg (by decide), goGetAux]
    simp only [parse_of_parsed _ hR3parsed, hR3err, hR3kids]
    show (goGetAux (setStrWalk buildObjectNode ["y", "z"] "1".toList).1 []).1.typ = Ty.Object
    decide
  · rw [goGet]
    simp only [hpp2, parsedPath.onlyRoot]
    rw [if_neg (by decide), goGetAux]
    simp only [parse_of_parsed _ hR3parsed, hR3err, hR3kids]
    show (goGetAux (setStrWalk buildObjectNode ["y", "z"] "1".toList).1 ["y"]).1.typ
      = Ty.Object
    decide
  · rw [goGet]
    simp only [hpp3, parsedPath.onlyRoot]
    rw [if_neg (by decide), goGetAux]
    simp only [parse_of_parsed _ hR3parsed, hR3err, hR3kids]
    show goValue (goGetAux (setStrWalk buildObjectNode ["y", "z"] "1".toList).1
      ["y", "z"]).1 = "1".toList
    decide
  · rw [goGet]
    simp only [hpp1, parsedPath.onlyRoot]
    rw [if_neg (by decide), goGetAux]
    simp only [parse_of_parsed _ hR1parsed, hR1err, hR1kids]
    show goValue (goGetAux ((buildObjectNode.setRaw "5".toList).setParsed false) []).1
      = "5".toList
    decide

/-- Witness for C5 at the concrete document `\x7b"a":1\x7d`. -/
theorem c5_set_get_autovivify_witness :
    goValue (goGet (goSetInt (parse (goNew "\x7b\"a\":1\x7d".toList)) "x.y.z" 1) "x.y.z").1
      = "1".toList :=
  (c5_set_get_autovivify (parse (goNew "\x7b\"a\":1\x7d".toList))
    (by decide) (by decide) (by decide) rfl (by decide)).2.2.2.1

/-! ### Decimal-digit documents round-trip (for the amended C1) -/

/-- The decimal digit characters, indexed for exhaustive case checks. -/
def digitChar (a : Fin 10) : Char := Char.ofNat (48 + a.val)

theorem equalFold_take_cons_ne (c x : Char) (cs ys : Str) (n : Nat)
    (h : ¬ c.toLower = x.toLower) :
    equalFold ((c :: cs).take n) (x :: ys) = false := by
  cases n with
  | zero => simp [equalFold]
  | succ m => simp [equalFold, h]

theorem takeWhile_all {p : Char → Bool} : ∀ l : Str, (∀ c ∈ l, p c = true) →
    l.takeWhile p = l := by
  intro l
  induction l with
  | nil => intro _; rfl
  | cons c rest ih =>
    intro h
    rw [List.takeWhile_cons, h c (by simp)]
    simp [ih fun c hc => h c (by simp [hc])]

theorem strIndexAux_none (s pat : Str)
    (h : ∀ j : Nat, pat.isPrefixOf (s.drop j) = false) :
    ∀ fuel i, strIndexAux s pat fuel i = none := by
  intro fuel
  induction fuel with
  | zero => intro i; rfl
  | succ f ih => intro i; rw [strIndexAux]; simp [h i, ih]

theorem feLoop_digits (ds : List (Fin 10)) : ∀ (i : Nat) (hd he hes : Bool),
    feLoop false false (ds.map digitChar) i hd he hes = i + ds.length := by
  induction ds with
  | nil => intro i hd he hes; simp [feLoop]
  | cons a rest ih =>
    intro i hd he hes
    have hdig : (digitChar a).isDigit = true := by revert a; decide
    rw [List.map_cons, feLoop]
    simp [hdig, ih]
    omega

theorem lowerStr_digits : ∀ l : List (Fin 10),
    lowerStr (l.map digitChar) = l.map digitChar := by
  intro l
  induction l with
  | nil => rfl
  | cons a rest ih =>
    have h : (digitChar a).toLower = digitChar a := by revert a; decide
    simp only [List.map_cons, lowerStr] at ih ⊢
    rw [h, ih]

theorem strIndex_digits_e (l : List (Fin 10)) :
    strIndex (l.map digitChar) ['e'] = none := by
  rw [strIndex]
  apply strIndexAux_none
  intro j
  rw [← List.map_drop]
  cases l.drop j with
  | nil => rfl
  | cons b r =>
    have hb : ('e' == digitChar b) = false := by revert b; decide
    simp [List.isPrefixOf, hb]

/-- The character-level facts about decimal digits used below, checked
exhaustively. -/
theorem digitChar_pack : ∀ a : Fin 10,
    (digitChar a).isDigit = true ∧
    decide (digitChar a = '+') = false ∧
    decide (digitChar a = '-') = false ∧
    ¬ digitChar a = 'i' ∧
    ¬ digitChar a = 'n' ∧
    decide (digitChar a = 'x') = false ∧
    decide (digitChar a = 'X') = false ∧
    decide (digitChar a = 'o') = false ∧
    decide (digitChar a = 'O') = false ∧
    ¬ (digitChar a).toLower = Char.toLower 'I' ∧
    ¬ (digitChar a).toLower = Char.toLower 'N' ∧
    (digitChar a).toLower = digitChar a ∧
    ('e' == digitChar a) = false := by decide

/-- Dispatch-level facts about decimal digits: they are not whitespace,
not a linebreak, and none of the non-number dispatch characters of
`parse`, while `numStartChar` accepts them. -/
theorem digitChar_dispatch : ∀ a : Fin 10,
    isLineBreaker (digitChar a) = false ∧
    isWhitespaceNLB (digitChar a) = false ∧
    ¬ digitChar a = backslash ∧
    ¬ digitChar a = lbraceC ∧
    ¬ digitChar a = lbrackC ∧
    ¬ digitChar a = dquote ∧
    ¬ digitChar a = squote ∧
    ¬ digitChar a = 't' ∧
    ¬ digitChar a = 'f' ∧
    ¬ digitChar a = 'n' ∧
    numStartChar (digitChar a) = true := by decide

theorem charAt_cons_zero (c : Char) (l : Str) : charAt (c :: l) 0 = c := rfl

theorem skipLineWhiteSpace_end (s : Str) (i : Nat) (h : s.length ≤ i) :
    skipLineWhiteSpace s i = i := by
  rw [skipLineWhiteSpace]
  show skipLineWhiteSpaceAux s (s.length + 1) i = i
  rw [skipLineWhiteSpaceAux]
  simp [Nat.not_lt.mpr h]

theorem skipWhiteSpace_end (s : Str) (i : Nat) (h : s.length ≤ i) :
    skipWhiteSpace s i = (i, false) := by
  rw [skipWhiteSpace]
  show skipWhiteSpaceAux s (s.length + 1) i false = (i, false)
  rw [skipWhiteSpaceAux]
  simp [Nat.not_lt.mpr h]

theorem skipWhiteSpace_cons_digit (a : Fin 10) (rest : Str) :
    skipWhiteSpace (digitChar a :: rest) 0 = (0, false) := by
  rw [skipWhiteSpace]
  show skipWhiteSpaceAux (digitChar a :: rest) (rest.length + 1 + 1) 0 false = (0, false)
  rw [skipWhiteSpaceAux]
  simp [charAt_cons_zero, (digitChar_dispatch a).1, (digitChar_dispatch a).2.1]

theorem goParseFloatOk_digits (a : Fin 10) (ds : List (Fin 10)) :
    goParseFloatOk ((a :: ds).map digitChar) = true := by
  have hsign : (decide (digitChar a = '+') || decide (digitChar a = '-')) = false := by
    rw [(digitChar_pack a).2.1, (digitChar_pack a).2.2.1]; rfl
  have hinf : "inf".toList = 'i' :: "nf".toList := rfl
  have hinfinity : "infinity".toList = 'i' :: "nfinity".toList := rfl
  have hnan : "nan".toList = 'n' :: "an".toList := rfl
  have hdigits : ∀ c ∈ (a :: ds).map digitChar, c.isDigit = true := by
    intro c hc
    rcases List.mem_map.mp hc with ⟨x, _, rfl⟩
    exact (digitChar_pack x).1
  have hdrop : List.drop ds.length (List.map digitChar ds) = [] := by
    rw [show ds.length = (List.map digitChar ds).length from (List.length_map _ _).symm]
    exact List.drop_length _
  have hdec : decFormOk ((a :: ds).map digitChar) = true := by
    rw [decFormOk, lowerStr_digits, strIndex_digits_e]
    rw [mantissaOk, takeWhile_all _ hdigits]
    simp [hdrop]
  have hdec' : decFormOk (digitChar a :: List.map digitChar ds) = true := by
    rw [← List.map_cons]; exact hdec
  rw [goParseFloatOk]
  · simp only [List.map_cons, stripSign, hsign, Bool.false_eq_true, if_false]
    simp only [← List.map_cons]
    simp only [lowerStr_digits]
    simp only [List.map_cons, hinf, hinfinity, hnan, List.cons.injEq]
    simp [(digitChar_pack a).2.2.2.1, (digitChar_pack a).2.2.2.2.1, hdec']
  · simp

theorem findEndOfNumber_digits (a : Fin 10) (ds : List (Fin 10)) :
    findEndOfNumber ((a :: ds).map digitChar) = ds.length + 1 := by
  have hInf : equalFold (((a :: ds).map digitChar).take 8) "INFINITY".toList = false := by
    rw [show "INFINITY".toList = 'I' :: "NFINITY".toList from rfl, List.map_cons]
    exact equalFold_take_cons_ne _ _ _ _ _ (digitChar_pack a).2.2.2.2.2.2.2.2.2.1
  have hNan : equalFold (((a :: ds).map digitChar).take 3) "NAN".toList = false := by
    rw [show "NAN".toList = 'N' :: "AN".toList from rfl, List.map_cons]
    exact equalFold_take_cons_ne _ _ _ _ _ (digitChar_pack a).2.2.2.2.2.2.2.2.2.2.1
  have hminus : decide (charAt ((a :: ds).map digitChar) 0 = '-') = false := by
    rw [List.map_cons]
    show decide (digitChar a = '-') = false
    exact (digitChar_pack a).2.2.1
  have hch1 : charAt ((a :: ds).map digitChar) 1 = charAt (ds.map digitChar) 0 := rfl
  have hxa : decide (charAt (ds.map digitChar) 0 = 'x') = false := by
    cases ds with
    | nil => decide
    | cons b r =>
      rw [List.map_cons]
      show decide (digitChar b = 'x') = false
      exact (digitChar_pack b).2.2.2.2.2.1
  have hXa : decide (charAt (ds.map digitChar) 0 = 'X') = false := by
    cases ds with
    | nil => decide
    | cons b r =>
      rw [List.map_cons]
      show decide (digitChar b = 'X') = false
      exact (digitChar_pack b).2.2.2.2.2.2.1
  have hoa : decide (charAt (ds.map digitChar) 0 = 'o') = false := by
    cases ds with
    | nil => decide
    | cons b r =>
      rw [List.map_cons]
      show decide (digitChar b = 'o') = false
      exact (digitChar_pack b).2.2.2.2.2.2.2.1
  have hOa : decide (charAt (ds.map digitChar) 0 = 'O') = false := by
    cases ds with
    | nil => decide
    | cons b r =>
      rw [List.map_cons]
      show decide (digitChar b = 'O') = false
      exact (digitChar_pack b).2.2.2.2.2.2.2.2.1
  have hfe := feLoop_digits (a :: ds) 0 false false false
  rw [findEndOfNumber]
  simp only [List.length_map, List.length_cons, hInf, Bool.and_false, hminus, Bool.false_and,
    hNan, hch1, hxa, hXa, hoa, hOa, Bool.or_self, Bool.false_eq_true, if_false,
    Nat.succ_ne_zero, hfe]
  simp [hfe]

theorem trailLoop_end3 (k : Nat) (n : Node) (b : Bool) (h : n.raw.length ≤ n.parseIdx) :
    trailLoop (k + 2) n b = n := by
  rw [show k + 2 = (k + 1) + 1 from rfl, trailLoop]
  simp [Nat.not_lt.mpr h]

/-- Parsing a document that is a bare run of decimal digits yields a
`Number` node whose single value token spans the whole text. -/
theorem parse_digits (a : Fin 10) (ds : List (Fin 10)) :
    parse (goNew (digitChar a :: ds.map digitChar)) =
      Node.mk (digitChar a :: ds.map digitChar) true Ty.Number [⟨dataTypeVal, []⟩]
        (digitChar a :: ds.map digitChar) [] (ds.length + 1) none := by
  obtain ⟨hlb, hws, hbs, hlb2, hlbk, hdq, hsq, ht, hf, hn, hnum⟩ := digitChar_dispatch a
  have hfe : findEndOfNumber (digitChar a :: ds.map digitChar) = ds.length + 1 := by
    rw [← List.map_cons]; exact findEndOfNumber_digits a ds
  have hfl : goParseFloatOk (digitChar a :: ds.map digitChar) = true := by
    rw [← List.map_cons]; exact goParseFloatOk_digits a ds
  have hsw := skipWhiteSpace_cons_digit a (ds.map digitChar)
  have hlen : (digitChar a :: ds.map digitChar).length = ds.length + 1 := by simp
  have htake : (digitChar a :: ds.map digitChar).take (ds.length + 1)
      = digitChar a :: ds.map digitChar := by
    rw [← hlen]; exact List.take_length _
  have hsl : skipLineWhiteSpace (digitChar a :: ds.map digitChar) (ds.length + 1)
      = ds.length + 1 := skipLineWhiteSpace_end _ _ (le_of_eq hlen)
  have hsw2 : skipWhiteSpace (digitChar a :: ds.map digitChar) (ds.length + 1)
      = (ds.length + 1, false) := skipWhiteSpace_end _ _ (le_of_eq hlen)
  rw [show parse (goNew (digitChar a :: ds.map digitChar)) =
    parseLoop ((digitChar a :: ds.map digitChar).length + 2)
      (Node.mk (digitChar a :: ds.map digitChar) true Ty.None [] [] [] 0 none) from rfl]
  rw [hlen, show ds.length + 1 + 2 = (ds.length + 2) + 1 from by omega]
  rw [parseLoop]
  simp only [Node.err, Node.raw, Node.parseIdx, Node.typ, Node.block, Node.val, Node.children,
    Node.parsed, Node.setIdx, Node.setTyp, Node.setErr, Node.setVal, Node.setBlock,
    Node.setChildren, Node.setParsed, Node.setRaw, Node.addBlock,
    hsw, charAt_cons_zero, hbs, hlb2, hlbk, hdq, hsq, ht, hf, hn, hnum,
    parseNumberF, List.drop_zero, hfe, hfl, sub, htake, hsl, hsw2, except, hlen,
    ne_eq, not_false_eq_true, if_true, if_false, Nat.zero_add, Nat.not_succ_le_zero,
    Nat.le_refl, ite_true, ite_false, Nat.sub_zero]
  simp only [false_or, or_false, if_false, ite_false, not_true, if_true, ite_true]
  simp only [Node.err, Node.raw, Node.parseIdx, Node.typ, Node.block, Node.val, Node.children,
    Node.parsed, Node.setIdx, Node.setTyp, Node.setErr, Node.setVal, Node.setBlock,
    Node.setChildren, Node.setParsed, Node.setRaw, Node.addBlock,
    hsw, charAt_cons_zero, parseNumberF, List.drop_zero, hfe, hfl, sub, htake, hsl, hsw2,
    except, hlen, ne_eq, not_false_eq_true, if_true, if_false, Nat.zero_add,
    Nat.not_succ_le_zero, Nat.le_refl, ite_true, ite_false, Nat.sub_zero, reduceCtorEq,
    not_true, not_false_iff]
  simp only [true_and, and_true, Nat.succ_pos, List.nil_append, if_true, ite_true]
  simp only [Node.err, Node.raw, Node.parseIdx, Node.typ, Node.block, Node.val, Node.children,
    Node.parsed, Node.setIdx, Node.setTyp, Node.setErr, Node.setVal, Node.setBlock,
    Node.setChildren, Node.setParsed, Node.setRaw, Node.addBlock,
    hsw, charAt_cons_zero, parseNumberF, List.drop_zero, hfe, hfl, sub, htake, hsl, hsw2,
    except, hlen, ne_eq, not_false_eq_true, if_true, if_false, Nat.zero_add,
    Nat.not_succ_le_zero, Nat.le_refl, ite_true, ite_false, Nat.sub_zero, reduceCtorEq,
    not_true, not_false_iff]
  rw [if_neg (Nat.not_succ_le_zero _)]
  exact trailLoop_end3 (ds.length + 1) _ false
    (by simp [Node.raw, Node.parseIdx, hlen])

/-- C1 (amended): `Pretty` after parse reproduces the input byte-for-byte
only when the input already coincides with the printer's re-synthesised
layout; in particular every document that is a bare run of at most 15
decimal digits round-trips exactly, and so does the single-member object
already in the printer's canonical multi-line layout, while
`\x7b"a":1\x7d` does not (see the counterexample).  Digit runs are
bounded because a long enough decimal literal (≈310 digits) overflows
float64, `strconv.ParseFloat` then returns ErrRange, and `parseNumber`
treats that as a parse failure, so unbounded digit documents do NOT all
round-trip; 15 digits keeps the literal far inside float64 range, where
the syntax-only ParseFloat model coincides with Go. -/
theorem c1_roundtrip_amended :
    (∀ (a : Fin 10) (ds : List (Fin 10)), ds.length + 1 ≤ 15 →
      goPretty 3 (parse (goNew (digitChar a :: ds.map digitChar)))
        = String.mk (digitChar a :: ds.map digitChar)) ∧
    goPretty 20 (parse (goNew "\x7b\n  \"a\": 1\n\x7d".toList)) = "\x7b\n  \"a\": 1\n\x7d" := by
  constructor
  · intro a ds _
    rw [parse_digits]
    rw [show (3 : Nat) = 2 + 1 from rfl]
    simp only [goPretty, Node.err, Node.parsed, Node.block, Node.typ, Node.val, buildAux,
      dataTypeComment, dataTypeCommentLine, dataTypeStartFlag, dataTypeKey, dataTypeColon,
      dataTypeVal, dataTypeComma, dataTypeEndFlag, dataTypeLineBreak, List.append_nil,
      reduceCtorEq, ne_eq]
    simp
  · decide

/-- Witness for the amended C1 at the two-digit document `12`. -/
theorem c1_roundtrip_amended_witness :
    goPretty 3 (parse (goNew (digitChar 1 :: ([2] : List (Fin 10)).map digitChar))) = "12" :=
  c1_roundtrip_amended.1 1 [2] (by decide)

end PJson5
